import Mathlib

/-!
Verification of the admin user/role management route handlers.

The development shallowly embeds the three server route modules:
the multi-intent add-new-user route (loader + action with
`create-role` / `delete-role` / user-creation intents), the plain
add-new-user route (loader + action), the all-users listing route
(loader), and the edit-user route (loader + action).

Form data is a list of key/value string pairs; the data store is an
explicit record of user rows and role rows; every handler is a pure
function from the store and the request to a result, the updated
store, and the trace of store/form operations it performed, in source
order.  External collaborators (the session/role guard, the
validation schemas shared from the user-validation module, and the
password hasher) are modelled from the spec where noted.
-/

/-- JavaScript `String.prototype.toLowerCase` as used by the handlers
(ASCII case folding on the character list of the string). -/
def toLowerCase (s : String) : String := ⟨s.data.map Char.toLower⟩

/-- One role row: `name` (natural key) and optional `description`. -/
structure Role where
  name : String
  description : Option String
deriving DecidableEq, Repr

/-- One user row together with its owned credential hash and the
names of its associated roles (the many-to-many join), plus the
store-assigned `createdAt` timestamp. -/
structure User where
  id : String
  email : String
  username : String
  name : String
  passwordHash : String
  roles : List String
  createdAt : Nat
deriving DecidableEq, Repr

/-- The relational store visible to these handlers. -/
structure DB where
  users : List User
  roles : List Role
deriving DecidableEq, Repr

/-- An inbound request: the resolved caller's role names (the
session/credential context) and the submitted form fields in order. -/
structure Request where
  callerRoles : List String
  form : List (String × String)
deriving DecidableEq, Repr

/-- `formData.get(key)`: first value under `key`, if any. -/
def formGet (form : List (String × String)) (key : String) : Option String :=
  (form.find? (fun kv => kv.1 == key)).map (fun kv => kv.2)

/-- `formData.getAll(key)`: every value under `key`, in order. -/
def formGetAll (form : List (String × String)) (key : String) : List String :=
  (form.filter (fun kv => kv.1 == key)).map (fun kv => kv.2)

/-- Modelled from the spec: `requireUserWithRole` from the external
permissions module — "resolves the requesting identity from the
request's session/credential context and confirms it holds the
`admin` role"; succeeds exactly when the caller holds the role. -/
def requireUserWithRole (callerRoles : List String) (role : String) : Bool :=
  callerRoles.contains role

/-- Modelled from the spec: `getPasswordHash` from the external auth
module — "hash(plaintext) -> opaque digest"; modelled as an injective
tagging of the plaintext, standing in for the one-way digest. -/
def getPasswordHash (password : String) : String :=
  "hashed:" ++ password

/-- `prisma.user.findUnique({ where: { email } })`. -/
def findUserByEmail (db : DB) (email : String) : Option User :=
  db.users.find? (fun u => u.email == email)

/-- `prisma.user.findUnique({ where: { username } })`. -/
def findUserByUsername (db : DB) (username : String) : Option User :=
  db.users.find? (fun u => u.username == username)

/-- `prisma.user.findFirst({ where: { email, NOT: { id } } })`. -/
def findFirstUserByEmailExcept (db : DB) (email uid : String) : Option User :=
  db.users.find? (fun u => u.email == email && u.id != uid)

/-- `prisma.user.findFirst({ where: { username, NOT: { id } } })`. -/
def findFirstUserByUsernameExcept (db : DB) (username uid : String) : Option User :=
  db.users.find? (fun u => u.username == username && u.id != uid)

/-- `prisma.user.findUnique({ where: { id } })`. -/
def findUserById (db : DB) (uid : String) : Option User :=
  db.users.find? (fun u => u.id == uid)

/-- `prisma.role.findUnique({ where: { name } })`. -/
def findRoleByName (db : DB) (n : String) : Option Role :=
  db.roles.find? (fun r => r.name == n)

/-- The store and form operations a handler can perform, recorded in
the order the handler issues them. -/
inductive Op where
  | formParse
  | roleFindMany
  | roleFindByName (name : String)
  | roleCreate (name : String)
  | roleDelete (name : String)
  | userFindMany
  | userFindById (id : String)
  | userFindByEmail (email : String)
  | userFindByUsername (username : String)
  | userFindFirstByEmailExcept (email id : String)
  | userFindFirstByUsernameExcept (username id : String)
  | userCreate (id : String)
  | userUpdate (id : String)
deriving DecidableEq, Repr

/-- The value an action settles with: a field-scoped error map with a
status, a success discriminator, a redirect, the absent/undefined
value (a handler that falls off its end), or the authorization-gate
rejection raised by `requireUserWithRole`. -/
inductive ActionResult where
  | fieldErrors (errors : List (String × List String)) (status : Nat)
  | success (formType : String)
  | redirectTo (location : String)
  | undef
  | authFailure
deriving DecidableEq, Repr

/-- Modelled from the spec: `EmailSchema` from the external
user-validation module — "well-formed email string (external shared
rule)"; modelled as nonempty and containing an at sign. -/
def emailSchemaOk (s : String) : Bool :=
  !(s == "") && s.data.contains '@'

/-- Modelled from the spec: `UsernameSchema` from the external
user-validation module — "length/character constraints"; modelled as
nonempty. -/
def usernameSchemaOk (s : String) : Bool :=
  !(s == "")

/-- Modelled from the spec: `PasswordSchema` from the external
user-validation module — "minimum strength"; modelled as a minimum
length. -/
def passwordSchemaOk (s : String) : Bool :=
  6 ≤ s.length

/-- The raw creation form data handed to `AddNewUserSchema.safeParse`:
each scalar field as `formData.get` returned it, and `roles` as an
optional list so that the schema-level default is expressible (`none`
is zod's `undefined`). -/
structure RawUserForm where
  email : Option String
  username : Option String
  password : Option String
  name : Option String
  roles : Option (List String)
deriving DecidableEq, Repr

/-- The validated record produced by `AddNewUserSchema`. -/
structure NewUserData where
  email : String
  username : String
  password : String
  name : String
  roles : List String
deriving DecidableEq, Repr

/-- One zod string field: missing input is rejected, present input is
checked; mirrors `result.error.flatten().fieldErrors` shape for the
failing case. -/
def fieldIssues (field : String) (value : Option String)
    (check : String → Bool) (msg : String) : List (String × List String) :=
  match value with
  | none => [(field, ["Required"])]
  | some s => if check s then [] else [(field, [msg])]

/-- `AddNewUserSchema.safeParse`: `email`/`username`/`password` use the
shared external rules, `name` is `z.string().min(1, 'Name is
required')`, and `roles` is `z.array(z.string()).default(['user'])` —
the default substitutes only for an `undefined` (`none`) input. -/
def AddNewUserSchema.safeParse (raw : RawUserForm) :
    Except (List (String × List String)) NewUserData :=
  let errs :=
    fieldIssues "email" raw.email emailSchemaOk "Invalid email" ++
    fieldIssues "username" raw.username usernameSchemaOk "Invalid username" ++
    fieldIssues "password" raw.password passwordSchemaOk "Password is too short" ++
    fieldIssues "name" raw.name (fun s => !(s == "")) "Name is required"
  if errs.isEmpty then
    Except.ok
      { email := raw.email.getD "", username := raw.username.getD "",
        password := raw.password.getD "", name := raw.name.getD "",
        roles := raw.roles.getD ["user"] }
  else Except.error errs

/-- The raw edit form data handed to `EditUserSchema.safeParse` (no
password field on the edit form). -/
structure RawEditForm where
  email : Option String
  username : Option String
  name : Option String
  roles : Option (List String)
deriving DecidableEq, Repr

/-- The validated record produced by `EditUserSchema`. -/
structure EditUserData where
  email : String
  username : String
  name : String
  roles : List String
deriving DecidableEq, Repr

/-- `EditUserSchema.safeParse`: like the creation schema but without
`password`. -/
def EditUserSchema.safeParse (raw : RawEditForm) :
    Except (List (String × List String)) EditUserData :=
  let errs :=
    fieldIssues "email" raw.email emailSchemaOk "Invalid email" ++
    fieldIssues "username" raw.username usernameSchemaOk "Invalid username" ++
    fieldIssues "name" raw.name (fun s => !(s == "")) "Name is required"
  if errs.isEmpty then
    Except.ok
      { email := raw.email.getD "", username := raw.username.getD "",
        name := raw.name.getD "", roles := raw.roles.getD ["user"] }
  else Except.error errs

/-- The `rawData` object the creation actions build from the form:
`formData.get` for the scalars and `formData.getAll('roles')` (always
a list, never `undefined`) for the roles. -/
def rawCreateForm (form : List (String × String)) : RawUserForm :=
  { email := formGet form "email", username := formGet form "username",
    password := formGet form "password", name := formGet form "name",
    roles := some (formGetAll form "roles") }

/-- The `rawData` object the edit action builds from the form. -/
def rawEditForm (form : List (String × String)) : RawEditForm :=
  { email := formGet form "email", username := formGet form "username",
    name := formGet form "name", roles := some (formGetAll form "roles") }

/-- The multi-intent add-new-user `action`: after the admin gate and
form parsing it branches on the `intent` field (`create-role`,
`delete-role`, otherwise user creation).  Faithful to the source,
including: the create-role branch lowercases `roleName` before the
emptiness check, the delete-role branch does not lowercase; the
delete writes through to the store once the reserved-name guard
passes (the store raising on an absent row is outside this model);
and on a fully successful user creation the source builds a redirect
but does not return it, so the action settles with the
absent/undefined value (`ActionResult.undef`).  `newUserId`/`now` are
the store-assigned row id and timestamp. -/
def addNewUserAction (db : DB) (req : Request) (newUserId : String) (now : Nat) :
    ActionResult × DB × List Op :=
  if !(requireUserWithRole req.callerRoles "admin") then (.authFailure, db, [])
  else
    let intent := formGet req.form "intent"
    if intent == some "create-role" then
      let roleName := toLowerCase ((formGet req.form "roleName").getD "")
      if roleName == "" then
        (.fieldErrors [("role", ["Role name is required"])] 400, db, [.formParse])
      else if (findRoleByName db roleName).isSome then
        (.fieldErrors [("role", ["This role already exists"])] 400, db,
          [.formParse, .roleFindByName roleName])
      else
        (.success "role",
          { db with roles := db.roles ++ [{ name := roleName, description := none }] },
          [.formParse, .roleFindByName roleName, .roleCreate roleName])
    else if intent == some "delete-role" then
      let roleName := (formGet req.form "roleName").getD ""
      if roleName == "" then
        (.fieldErrors [("role", ["Role name is required"])] 400, db, [.formParse])
      else if roleName == "admin" || roleName == "user" then
        (.fieldErrors [("role", ["Cannot delete system roles"])] 400, db, [.formParse])
      else
        (.success "delete-role",
          { db with roles := db.roles.filter (fun r => r.name != roleName) },
          [.formParse, .roleDelete roleName])
    else
      match AddNewUserSchema.safeParse (rawCreateForm req.form) with
      | .error errs => (.fieldErrors errs 400, db, [.formParse])
      | .ok d =>
        if (findUserByEmail db (toLowerCase d.email)).isSome then
          (.fieldErrors [("email", ["A user with this email already exists"])] 400, db,
            [.formParse, .userFindByEmail (toLowerCase d.email)])
        else if (findUserByUsername db (toLowerCase d.username)).isSome then
          (.fieldErrors [("username", ["A user with this username already exists"])] 400, db,
            [.formParse, .userFindByEmail (toLowerCase d.email),
             .userFindByUsername (toLowerCase d.username)])
        else
          (.undef,
            { db with users := db.users ++
                [{ id := newUserId, email := toLowerCase d.email,
                   username := toLowerCase d.username, name := d.name,
                   passwordHash := getPasswordHash d.password, roles := d.roles,
                   createdAt := now }] },
            [.formParse, .userFindByEmail (toLowerCase d.email),
             .userFindByUsername (toLowerCase d.username), .userCreate newUserId])

/-- The plain (single-intent) add-new-user `action` of the second
creation route: identical creation logic, but it returns the redirect
to the confirmation destination. -/
def addNewUserSimpleAction (db : DB) (req : Request) (newUserId : String) (now : Nat) :
    ActionResult × DB × List Op :=
  if !(requireUserWithRole req.callerRoles "admin") then (.authFailure, db, [])
  else
    match AddNewUserSchema.safeParse (rawCreateForm req.form) with
    | .error errs => (.fieldErrors errs 400, db, [.formParse])
    | .ok d =>
      if (findUserByEmail db (toLowerCase d.email)).isSome then
        (.fieldErrors [("email", ["A user with this email already exists"])] 400, db,
          [.formParse, .userFindByEmail (toLowerCase d.email)])
      else if (findUserByUsername db (toLowerCase d.username)).isSome then
        (.fieldErrors [("username", ["A user with this username already exists"])] 400, db,
          [.formParse, .userFindByEmail (toLowerCase d.email),
           .userFindByUsername (toLowerCase d.username)])
      else
        (.redirectTo "/admin/successful-user-created",
          { db with users := db.users ++
              [{ id := newUserId, email := toLowerCase d.email,
                 username := toLowerCase d.username, name := d.name,
                 passwordHash := getPasswordHash d.password, roles := d.roles,
                 createdAt := now }] },
          [.formParse, .userFindByEmail (toLowerCase d.email),
           .userFindByUsername (toLowerCase d.username), .userCreate newUserId])

/-- The edit-user `action`: admin gate, `EditUserSchema` validation,
email-then-username conflict checks each excluding the target row by
id, then one update that lowercases email/username, sets `name`, and
replaces the role-association set (`set: []` then `connect`), and a
redirect to the listing view. -/
def editUserAction (db : DB) (req : Request) (userId : String) :
    ActionResult × DB × List Op :=
  if !(requireUserWithRole req.callerRoles "admin") then (.authFailure, db, [])
  else
    match EditUserSchema.safeParse (rawEditForm req.form) with
    | .error errs => (.fieldErrors errs 400, db, [.formParse])
    | .ok d =>
      if (findFirstUserByEmailExcept db (toLowerCase d.email) userId).isSome then
        (.fieldErrors [("email", ["This email is already taken"])] 400, db,
          [.formParse, .userFindFirstByEmailExcept (toLowerCase d.email) userId])
      else if (findFirstUserByUsernameExcept db (toLowerCase d.username) userId).isSome then
        (.fieldErrors [("username", ["This username is already taken"])] 400, db,
          [.formParse, .userFindFirstByEmailExcept (toLowerCase d.email) userId,
           .userFindFirstByUsernameExcept (toLowerCase d.username) userId])
      else
        (.redirectTo "/admin/all-users",
          { db with users := db.users.map (fun u =>
              if u.id == userId then
                { u with email := toLowerCase d.email, username := toLowerCase d.username,
                         name := d.name, roles := d.roles }
              else u) },
          [.formParse, .userFindFirstByEmailExcept (toLowerCase d.email) userId,
           .userFindFirstByUsernameExcept (toLowerCase d.username) userId,
           .userUpdate userId])

/-- Insert into a list already ordered by `le` (helper for the
`orderBy` model). -/
def insertOrdered (le : α → α → Bool) (a : α) : List α → List α
  | [] => [a]
  | b :: l => if le a b then a :: b :: l else b :: insertOrdered le a l

/-- The store's `orderBy` comparator applied to a result set,
modelled as an insertion sort. -/
def sortBy (le : α → α → Bool) : List α → List α
  | [] => []
  | a :: l => insertOrdered le a (sortBy le l)

/-- The shape of a listed user: the `select` projection of the
listing and edit loaders (id, email, username, name, role names). -/
structure UserRow where
  id : String
  email : String
  username : String
  name : String
  roles : List String
deriving DecidableEq, Repr

/-- Projection of a stored user to the loader `select` shape. -/
def User.toRow (u : User) : UserRow :=
  { id := u.id, email := u.email, username := u.username, name := u.name, roles := u.roles }

/-- The value a loader settles with. -/
inductive LoaderResult where
  | authFailure
  | notFound (status : Nat)
  | allUsersData (users : List UserRow)
  | roleNamesData (availableRoles : List String)
  | emptyData
  | editData (user : UserRow) (availableRoles : List Role)
deriving DecidableEq, Repr

/-- The all-users listing `loader`: admin gate, then every user with
its role names, ordered by `createdAt` descending. -/
def allUsersLoader (db : DB) (req : Request) : LoaderResult × List Op :=
  if !(requireUserWithRole req.callerRoles "admin") then (.authFailure, [])
  else
    (.allUsersData
        ((sortBy (fun a b => decide (b.createdAt ≤ a.createdAt)) db.users).map User.toRow),
      [.userFindMany])

/-- The multi-intent add-new-user route's `loader`: admin gate, then
the available role names ordered ascending. -/
def addNewUserLoader (db : DB) (req : Request) : LoaderResult × List Op :=
  if !(requireUserWithRole req.callerRoles "admin") then (.authFailure, [])
  else
    (.roleNamesData (sortBy (fun a b => decide (a ≤ b)) (db.roles.map (fun r => r.name))),
      [.roleFindMany])

/-- The plain add-new-user route's `loader`: admin gate, then an
empty payload. -/
def addNewUserSimpleLoader (_db : DB) (req : Request) : LoaderResult × List Op :=
  if !(requireUserWithRole req.callerRoles "admin") then (.authFailure, [])
  else (.emptyData, [])

/-- The edit-user `loader`: admin gate, the available roles (name and
description, ordered by name), then the target user by id; a missing
target raises the 404 not-found response before any form data is
produced. -/
def editUserLoader (db : DB) (req : Request) (userId : String) : LoaderResult × List Op :=
  if !(requireUserWithRole req.callerRoles "admin") then (.authFailure, [])
  else
    let availableRoles := sortBy (fun a b => decide (a.name ≤ b.name)) db.roles
    match findUserById db userId with
    | none => (.notFound 404, [.roleFindMany, .userFindById userId])
    | some u => (.editData u.toRow availableRoles, [.roleFindMany, .userFindById userId])

/-- Every stored email and username is already lowercase. -/
def storedLowercase (db : DB) : Prop :=
  ∀ u ∈ db.users, toLowerCase u.email = u.email ∧ toLowerCase u.username = u.username

/-- No two stored users share an email or a username case-insensitively. -/
def caseInsensitiveUnique (db : DB) : Prop :=
  db.users.Pairwise (fun u v =>
    toLowerCase u.email ≠ toLowerCase v.email ∧
    toLowerCase u.username ≠ toLowerCase v.username)

/-! ## Test fixtures used by closed witnesses and counterexamples -/

/-- Fixture: a store holding only the two system roles and no users. -/
def dbRolesOnly : DB :=
  { users := [],
    roles := [{ name := "user", description := none }, { name := "admin", description := none }] }

/-- Fixture: a complete, valid creation form. -/
def creationForm : List (String × String) :=
  [("email", "A@B.com"), ("username", "Bob"), ("password", "validpass123"),
   ("name", "Bob B"), ("roles", "user")]

/-- Fixture: a request made by a caller holding the admin role. -/
def adminReq (form : List (String × String)) : Request :=
  { callerRoles := ["admin"], form := form }

/-- Fixture: a role-intent form with the given intent and role name. -/
def roleIntentForm (i n : String) : List (String × String) :=
  [("intent", i), ("roleName", n)]

/-- Fixture: the system roles plus a deletable `editor` role. -/
def dbWithEditor : DB :=
  { users := [],
    roles := [{ name := "user", description := none }, { name := "admin", description := none },
              { name := "editor", description := none }] }

/-- Fixture: a stored user, lowercased, holding both system roles. -/
def userBob : User :=
  { id := "u1", email := "a@b.com", username := "bob", name := "Bob",
    passwordHash := "h", roles := ["user", "admin"], createdAt := 0 }

/-- Fixture: a store with one user and the system roles. -/
def dbOneUser : DB := { users := [userBob], roles := dbRolesOnly.roles }

/-- Fixture: an edit form that omits the `roles` field entirely. -/
def editFormNoRoles : List (String × String) :=
  [("email", "a@b.com"), ("username", "bob"), ("name", "Bob")]

/-- Fixture: an edit form submitting exactly the `admin` role. -/
def editFormAdminRole : List (String × String) :=
  [("email", "a@b.com"), ("username", "bob"), ("name", "Bob"), ("roles", "admin")]

/-- Fixture: a creation form that omits the `roles` field entirely. -/
def creationFormNoRoles : List (String × String) :=
  [("email", "a@b.com"), ("username", "bob"), ("password", "validpass123"), ("name", "Bob B")]

/-- Fixture: a second valid creation form with a fresh email and
username. -/
def creationForm2 : List (String × String) :=
  [("email", "C@D.com"), ("username", "Carol"), ("password", "validpass123"),
   ("name", "Carol C"), ("roles", "user")]

/-! ## Generic lemmas about the embedded primitives -/

lemma charOfNat_toNat (n : Nat) (h : n.isValidChar) : (Char.ofNat n).toNat = n := by
  simp [Char.ofNat, h, Char.ofNatAux, Char.toNat, UInt32.toNat, BitVec.toNat_ofNatLt]

lemma Char.toLower_toLower (c : Char) : c.toLower.toLower = c.toLower := by
  simp only [Char.toLower]
  by_cases h : c.toNat ≥ 65 ∧ c.toNat ≤ 90
  · have hv : (c.toNat + 32).isValidChar := Or.inl (by omega)
    simp only [if_pos h, charOfNat_toNat _ hv]
    rw [if_neg (by omega)]
  · simp only [if_neg h]

lemma toLowerCase_idem (s : String) : toLowerCase (toLowerCase s) = toLowerCase s := by
  unfold toLowerCase
  congr 1
  show (s.data.map Char.toLower).map Char.toLower = s.data.map Char.toLower
  rw [List.map_map]
  exact List.map_congr_left (fun a _ => Char.toLower_toLower a)

lemma toLowerCase_eq_empty_iff (s : String) : toLowerCase s = "" ↔ s = "" := by
  rcases s with ⟨l⟩
  unfold toLowerCase
  constructor
  · intro h
    have hd : l.map Char.toLower = [] := congrArg String.data h
    have hl : l = [] := List.map_eq_nil_iff.mp hd
    rw [hl]
  · intro h
    have hl : l = [] := congrArg String.data h
    rw [hl]
    rfl

lemma toLowerCase_empty : toLowerCase "" = "" := rfl

/-- Reduction of the multi-intent creation action on the
fully-successful user-creation path (no role intent, validation ok,
both uniqueness checks clear). -/
lemma addNewUserAction_createSuccess (db : DB) (req : Request)
    (nid : String) (now : Nat) (d : NewUserData)
    (hAdmin : requireUserWithRole req.callerRoles "admin" = true)
    (hI1 : formGet req.form "intent" ≠ some "create-role")
    (hI2 : formGet req.form "intent" ≠ some "delete-role")
    (hParse : AddNewUserSchema.safeParse (rawCreateForm req.form) = Except.ok d)
    (hNoEmail : findUserByEmail db (toLowerCase d.email) = none)
    (hNoUser : findUserByUsername db (toLowerCase d.username) = none) :
    addNewUserAction db req nid now =
      (.undef,
       { db with users := db.users ++
           [{ id := nid, email := toLowerCase d.email, username := toLowerCase d.username,
              name := d.name, passwordHash := getPasswordHash d.password, roles := d.roles,
              createdAt := now }] },
       [.formParse, .userFindByEmail (toLowerCase d.email),
        .userFindByUsername (toLowerCase d.username), .userCreate nid]) := by
  unfold addNewUserAction
  simp [hAdmin, hI1, hI2, hParse, hNoEmail, hNoUser]

/-- Reduction of the edit action on the fully-successful path
(validation ok, both conflict checks clear). -/
lemma editUserAction_updateSuccess (db : DB) (req : Request)
    (uid : String) (d : EditUserData)
    (hAdmin : requireUserWithRole req.callerRoles "admin" = true)
    (hParse : EditUserSchema.safeParse (rawEditForm req.form) = Except.ok d)
    (hNoEmail : findFirstUserByEmailExcept db (toLowerCase d.email) uid = none)
    (hNoUser : findFirstUserByUsernameExcept db (toLowerCase d.username) uid = none) :
    editUserAction db req uid =
      (.redirectTo "/admin/all-users",
       { db with users := db.users.map (fun u =>
           if u.id == uid then
             { u with email := toLowerCase d.email, username := toLowerCase d.username,
                      name := d.name, roles := d.roles }
           else u) },
       [.formParse, .userFindFirstByEmailExcept (toLowerCase d.email) uid,
        .userFindFirstByUsernameExcept (toLowerCase d.username) uid,
        .userUpdate uid]) := by
  unfold editUserAction
  simp [hAdmin, hParse, hNoEmail, hNoUser]

/-! ## The claims -/

/-- C1 (code_bug evidence): at a fully valid creation request — schema
validation passes and both uniqueness checks find no conflict — the
multi-intent action inserts the user row (stored lowercased) but its
result is the absent/undefined value, not a redirect: the source
builds the confirmation redirect without returning it.  The sibling
single-intent creation action returns the redirect at the very same
input. -/
theorem addNewUserAction_success_returns_undef :
    (addNewUserAction dbRolesOnly (adminReq creationForm) "u1" 0).1 = ActionResult.undef ∧
    (addNewUserAction dbRolesOnly (adminReq creationForm) "u1" 0).1 ≠
      ActionResult.redirectTo "/admin/successful-user-created" ∧
    (addNewUserAction dbRolesOnly (adminReq creationForm) "u1" 0).2.1.users.map
      (fun u => (u.email, u.username)) = [("a@b.com", "bob")] ∧
    (addNewUserSimpleAction dbRolesOnly (adminReq creationForm) "u1" 0).1 =
      ActionResult.redirectTo "/admin/successful-user-created" := by
  decide

/-- C8: with a caller that does not hold the admin role, every
handler — both creation actions and loaders, the edit action and
loader, and the listing loader — settles with the authorization
failure, leaves the store untouched, and performs no form parsing
and no store operation at all (its operation trace is empty). -/
theorem handlers_reject_nonAdmin_before_any_access (db : DB) (req : Request)
    (nid uid : String) (now : Nat)
    (h : requireUserWithRole req.callerRoles "admin" = false) :
    addNewUserAction db req nid now = (.authFailure, db, []) ∧
    addNewUserSimpleAction db req nid now = (.authFailure, db, []) ∧
    editUserAction db req uid = (.authFailure, db, []) ∧
    allUsersLoader db req = (.authFailure, []) ∧
    addNewUserLoader db req = (.authFailure, []) ∧
    addNewUserSimpleLoader db req = (.authFailure, []) ∧
    editUserLoader db req uid = (.authFailure, []) := by
  unfold addNewUserAction addNewUserSimpleAction editUserAction allUsersLoader
    addNewUserLoader addNewUserSimpleLoader editUserLoader
  simp [h]

/-- C8 witness: a caller holding only the `user` role is turned away
by every handler with an empty operation trace. -/
theorem handlers_reject_nonAdmin_witness :
    requireUserWithRole ["user"] "admin" = false ∧
    addNewUserAction dbRolesOnly { callerRoles := ["user"], form := creationForm } "u1" 0 =
      (.authFailure, dbRolesOnly, []) ∧
    editUserLoader dbRolesOnly { callerRoles := ["user"], form := [] } "u9" =
      (.authFailure, []) :=
  ⟨by decide,
   (handlers_reject_nonAdmin_before_any_access dbRolesOnly
      { callerRoles := ["user"], form := creationForm } "u1" "u9" 0 (by decide)).1,
   (handlers_reject_nonAdmin_before_any_access dbRolesOnly
      { callerRoles := ["user"], form := [] } "u1" "u9" 0 (by decide)).2.2.2.2.2.2⟩

/-- C9: when the edit-page target id resolves to no stored user, the
edit loader settles with the 404 not-found condition after the role
listing and the failed user lookup; no user data is produced. -/
theorem editUserLoader_missing_target_404 (db : DB) (req : Request) (uid : String)
    (hAdmin : requireUserWithRole req.callerRoles "admin" = true)
    (hMissing : findUserById db uid = none) :
    editUserLoader db req uid = (.notFound 404, [.roleFindMany, .userFindById uid]) := by
  unfold editUserLoader
  simp [hAdmin, hMissing]

/-- C9 witness: loading the edit page for id `ghost` against a store
with no such user yields the 404 result. -/
theorem editUserLoader_missing_target_404_witness :
    requireUserWithRole ["admin"] "admin" = true ∧
    findUserById dbRolesOnly "ghost" = none ∧
    editUserLoader dbRolesOnly (adminReq []) "ghost" =
      (.notFound 404, [.roleFindMany, .userFindById "ghost"]) :=
  ⟨by decide, by decide,
   editUserLoader_missing_target_404 dbRolesOnly (adminReq []) "ghost" (by decide) (by decide)⟩


/-- C4: under the `create-role` intent the submitted `roleName` is
lowercased before every check and write; an empty or missing name
yields the 400 "Role name is required" error; an existing role with
the lowercased name yields the 400 "This role already exists" error
with no insert; otherwise exactly one role row with the lowercased
name is appended and the result is the `role` success discriminator.
The closing conjunct runs the spec scenario: creating `editor`
succeeds and creating `EDITOR` afterwards is rejected as a
duplicate. -/
theorem createRole_lowercases_checks_inserts (db : DB) (req : Request)
    (nid : String) (now : Nat)
    (hAdmin : requireUserWithRole req.callerRoles "admin" = true)
    (hIntent : formGet req.form "intent" = some "create-role") :
    ((formGet req.form "roleName").getD "" = "" →
       addNewUserAction db req nid now =
         (.fieldErrors [("role", ["Role name is required"])] 400, db, [.formParse])) ∧
    (∀ s, formGet req.form "roleName" = some s → s ≠ "" →
       ((findRoleByName db (toLowerCase s)).isSome = true →
          addNewUserAction db req nid now =
            (.fieldErrors [("role", ["This role already exists"])] 400, db,
             [.formParse, .roleFindByName (toLowerCase s)])) ∧
       ((findRoleByName db (toLowerCase s)).isSome = false →
          addNewUserAction db req nid now =
            (.success "role",
             { db with roles := db.roles ++ [{ name := toLowerCase s, description := none }] },
             [.formParse, .roleFindByName (toLowerCase s), .roleCreate (toLowerCase s)]))) ∧
    ((addNewUserAction dbRolesOnly (adminReq (roleIntentForm "create-role" "editor")) "u" 0).1 =
       .success "role" ∧
     (addNewUserAction
        (addNewUserAction dbRolesOnly (adminReq (roleIntentForm "create-role" "editor")) "u" 0).2.1
        (adminReq (roleIntentForm "create-role" "EDITOR")) "u" 0).1 =
       .fieldErrors [("role", ["This role already exists"])] 400) := by
  refine ⟨?_, ?_, by decide⟩
  · intro hEmpty
    unfold addNewUserAction
    simp [hAdmin, hIntent, hEmpty, toLowerCase_empty]
  · intro s hName hs
    have hlower : ¬(toLowerCase s = "") := fun h => hs ((toLowerCase_eq_empty_iff s).mp h)
    constructor
    · intro hDup
      unfold addNewUserAction
      simp [hAdmin, hIntent, hName, hlower, hDup]
    · intro hFresh
      unfold addNewUserAction
      simp [hAdmin, hIntent, hName, hlower, hFresh]

/-- C4 witness: submitting `Editor` inserts the lowercased `editor`
row and reports the `role` success. -/
theorem createRole_witness :
    requireUserWithRole ["admin"] "admin" = true ∧
    formGet (roleIntentForm "create-role" "Editor") "roleName" = some "Editor" ∧
    addNewUserAction dbRolesOnly (adminReq (roleIntentForm "create-role" "Editor")) "u" 0 =
      (.success "role",
       { dbRolesOnly with
          roles := dbRolesOnly.roles ++ [{ name := "editor", description := none }] },
       [.formParse, .roleFindByName "editor", .roleCreate "editor"]) :=
  ⟨by decide, by decide,
   ((createRole_lowercases_checks_inserts dbRolesOnly
       (adminReq (roleIntentForm "create-role" "Editor")) "u" 0
       (by decide) (by decide)).2.1 "Editor" (by decide) (by decide)).2 (by decide)⟩

/-- C5: under the `delete-role` intent the submitted `roleName` is
used verbatim; an empty or missing name yields the 400 "Role name is
required" error; the exact strings `admin` and `user` are rejected
with the 400 "Cannot delete system roles" error and the store is
unchanged (for any caller that passed the admin gate); any other
name is deleted from the role table and the result is the
`delete-role` success discriminator.  The closing conjunct runs the
spec scenario: deleting `editor` succeeds, deleting `admin` is
rejected. -/
theorem deleteRole_guards_and_deletes (db : DB) (req : Request)
    (nid : String) (now : Nat)
    (hAdmin : requireUserWithRole req.callerRoles "admin" = true)
    (hIntent : formGet req.form "intent" = some "delete-role") :
    ((formGet req.form "roleName").getD "" = "" →
       addNewUserAction db req nid now =
         (.fieldErrors [("role", ["Role name is required"])] 400, db, [.formParse])) ∧
    (∀ r, formGet req.form "roleName" = some r → (r = "admin" ∨ r = "user") →
       addNewUserAction db req nid now =
         (.fieldErrors [("role", ["Cannot delete system roles"])] 400, db, [.formParse])) ∧
    (∀ r, formGet req.form "roleName" = some r → r ≠ "" → r ≠ "admin" → r ≠ "user" →
       addNewUserAction db req nid now =
         (.success "delete-role",
          { db with roles := db.roles.filter (fun ro => ro.name != r) },
          [.formParse, .roleDelete r])) ∧
    ((addNewUserAction dbWithEditor (adminReq (roleIntentForm "delete-role" "editor")) "u" 0).1 =
       .success "delete-role" ∧
     (addNewUserAction dbWithEditor (adminReq (roleIntentForm "delete-role" "editor")) "u" 0).2.1.roles =
       [{ name := "user", description := none }, { name := "admin", description := none }] ∧
     (addNewUserAction dbWithEditor (adminReq (roleIntentForm "delete-role" "admin")) "u" 0) =
       (.fieldErrors [("role", ["Cannot delete system roles"])] 400, dbWithEditor, [.formParse])) := by
  refine ⟨?_, ?_, ?_, by decide⟩
  · intro hEmpty
    unfold addNewUserAction
    simp [hAdmin, hIntent, hEmpty]
  · intro r hName hRes
    unfold addNewUserAction
    rcases hRes with h | h <;> subst h <;> simp [hAdmin, hIntent, hName]
  · intro r hName hs hA hU
    unfold addNewUserAction
    simp [hAdmin, hIntent, hName, hs, hA, hU]

/-- C5 witness: deleting the reserved `user` role is rejected even
for an admin caller. -/
theorem deleteRole_witness :
    formGet (roleIntentForm "delete-role" "user") "roleName" = some "user" ∧
    addNewUserAction dbRolesOnly (adminReq (roleIntentForm "delete-role" "user")) "u" 0 =
      (.fieldErrors [("role", ["Cannot delete system roles"])] 400, dbRolesOnly, [.formParse]) :=
  ⟨by decide,
   (deleteRole_guards_and_deletes dbRolesOnly (adminReq (roleIntentForm "delete-role" "user"))
      "u" 0 (by decide) (by decide)).2.1 "user" (by decide) (Or.inr rfl)⟩

/-- C10: the reserved-role guard of the delete-role branch compares
the submitted name verbatim against `admin`/`user`; a case variant
such as `Admin` or `USER` passes the guard, is not rejected with the
reserved-role error, and the handler attempts (and in this model
performs) the deletion of the row with that exact name. -/
theorem deleteRole_reserved_guard_is_case_sensitive (db : DB) (req : Request)
    (nid : String) (now : Nat) (r : String)
    (hAdmin : requireUserWithRole req.callerRoles "admin" = true)
    (hIntent : formGet req.form "intent" = some "delete-role")
    (hName : formGet req.form "roleName" = some r)
    (hVariant : toLowerCase r = "admin" ∨ toLowerCase r = "user")
    (hA : r ≠ "admin") (hU : r ≠ "user") :
    addNewUserAction db req nid now =
      (.success "delete-role",
       { db with roles := db.roles.filter (fun ro => ro.name != r) },
       [.formParse, .roleDelete r]) ∧
    (addNewUserAction db req nid now).1 ≠
      .fieldErrors [("role", ["Cannot delete system roles"])] 400 ∧
    Op.roleDelete r ∈ (addNewUserAction db req nid now).2.2 := by
  have hs : r ≠ "" := by
    intro h0
    subst h0
    rcases hVariant with h | h <;> exact absurd h (by decide)
  have heq : addNewUserAction db req nid now =
      (.success "delete-role",
       { db with roles := db.roles.filter (fun ro => ro.name != r) },
       [.formParse, .roleDelete r]) := by
    unfold addNewUserAction
    simp [hAdmin, hIntent, hName, hs, hA, hU]
  refine ⟨heq, ?_, ?_⟩
  · rw [heq]
    simp
  · rw [heq]
    simp

/-- C10 witness: a delete request for `Admin` passes the guard and
deletes the `Admin`-named row (here a no-op on the store, which only
holds lowercase names). -/
theorem deleteRole_caseSensitive_witness :
    toLowerCase "Admin" = "admin" ∧
    addNewUserAction dbRolesOnly (adminReq (roleIntentForm "delete-role" "Admin")) "u" 0 =
      (.success "delete-role",
       { dbRolesOnly with roles := dbRolesOnly.roles.filter (fun ro => ro.name != "Admin") },
       [.formParse, .roleDelete "Admin"]) :=
  ⟨by decide,
   (deleteRole_reserved_guard_is_case_sensitive dbRolesOnly
      (adminReq (roleIntentForm "delete-role" "Admin")) "u" 0 "Admin"
      (by decide) (by decide) (by decide) (Or.inl (by decide)) (by decide) (by decide)).1⟩

/-- C3: when the lowercased email conflicts, both write paths stop at
the email check: the creation action (on its user-creation
fall-through) and the edit action each return the 400 result whose
error map holds only the `email` entry, leave the store unchanged,
and their operation trace ends at the email lookup — no username
lookup of any kind is performed. -/
theorem emailConflict_shortCircuits_userLookup :
    (∀ (db : DB) (req : Request) (nid : String) (now : Nat) (d : NewUserData) (u : User),
       requireUserWithRole req.callerRoles "admin" = true →
       formGet req.form "intent" ≠ some "create-role" →
       formGet req.form "intent" ≠ some "delete-role" →
       AddNewUserSchema.safeParse (rawCreateForm req.form) = Except.ok d →
       findUserByEmail db (toLowerCase d.email) = some u →
       addNewUserAction db req nid now =
         (.fieldErrors [("email", ["A user with this email already exists"])] 400, db,
          [.formParse, .userFindByEmail (toLowerCase d.email)]) ∧
       ∀ s, Op.userFindByUsername s ∉ (addNewUserAction db req nid now).2.2) ∧
    (∀ (db : DB) (req : Request) (uid : String) (d : EditUserData) (u : User),
       requireUserWithRole req.callerRoles "admin" = true →
       EditUserSchema.safeParse (rawEditForm req.form) = Except.ok d →
       findFirstUserByEmailExcept db (toLowerCase d.email) uid = some u →
       editUserAction db req uid =
         (.fieldErrors [("email", ["This email is already taken"])] 400, db,
          [.formParse, .userFindFirstByEmailExcept (toLowerCase d.email) uid]) ∧
       ∀ s, Op.userFindFirstByUsernameExcept s uid ∉ (editUserAction db req uid).2.2) := by
  constructor
  · intro db req nid now d u hAdmin hI1 hI2 hParse hConflict
    have heq : addNewUserAction db req nid now =
        (.fieldErrors [("email", ["A user with this email already exists"])] 400, db,
         [.formParse, .userFindByEmail (toLowerCase d.email)]) := by
      unfold addNewUserAction
      simp [hAdmin, hI1, hI2, hParse, hConflict]
    refine ⟨heq, ?_⟩
    intro s
    rw [heq]
    simp
  · intro db req uid d u hAdmin hParse hConflict
    have heq : editUserAction db req uid =
        (.fieldErrors [("email", ["This email is already taken"])] 400, db,
         [.formParse, .userFindFirstByEmailExcept (toLowerCase d.email) uid]) := by
      unfold editUserAction
      simp [hAdmin, hParse, hConflict]
    refine ⟨heq, ?_⟩
    intro s
    rw [heq]
    simp

/-- C3 witness: recreating `A@B.com` over stored `a@b.com` stops at
the email check. -/
theorem emailConflict_witness :
    AddNewUserSchema.safeParse (rawCreateForm creationForm) =
      Except.ok { email := "A@B.com", username := "Bob", password := "validpass123",
                  name := "Bob B", roles := ["user"] } ∧
    findUserByEmail dbOneUser "a@b.com" = some userBob ∧
    addNewUserAction dbOneUser (adminReq creationForm) "u2" 1 =
      (.fieldErrors [("email", ["A user with this email already exists"])] 400, dbOneUser,
       [.formParse, .userFindByEmail "a@b.com"]) :=
  ⟨by rfl, by decide,
   (emailConflict_shortCircuits_userLookup.1 dbOneUser (adminReq creationForm) "u2" 1
      { email := "A@B.com", username := "Bob", password := "validpass123",
        name := "Bob B", roles := ["user"] } userBob
      (by decide) (by decide) (by decide) (by rfl) (by decide)).1⟩

/-- C6: a successful edit replaces the target's role-association set
with exactly the submitted names, whatever the prior associations: the
first conjunct is the general replacement property, the second runs
the spec scenario (roles omitted clears every association; `admin`
alone leaves exactly that one). -/
theorem editUser_clearThenConnect :
    (∀ (db : DB) (req : Request) (uid : String) (d : EditUserData) (u : User),
       requireUserWithRole req.callerRoles "admin" = true →
       EditUserSchema.safeParse (rawEditForm req.form) = Except.ok d →
       findFirstUserByEmailExcept db (toLowerCase d.email) uid = none →
       findFirstUserByUsernameExcept db (toLowerCase d.username) uid = none →
       findUserById db uid = some u →
       (editUserAction db req uid).1 = .redirectTo "/admin/all-users" ∧
       (∀ v ∈ (editUserAction db req uid).2.1.users, v.id = uid → v.roles = d.roles) ∧
       (∃ v ∈ (editUserAction db req uid).2.1.users, v.id = uid ∧ v.roles = d.roles)) ∧
    ((editUserAction dbOneUser (adminReq editFormNoRoles) "u1").2.1.users.map
        (fun v => v.roles) = [[]] ∧
     (editUserAction dbOneUser (adminReq editFormAdminRole) "u1").2.1.users.map
        (fun v => v.roles) = [["admin"]]) := by
  constructor
  · intro db req uid d u hAdmin hParse hNoEmail hNoUser hFind
    rw [editUserAction_updateSuccess db req uid d hAdmin hParse hNoEmail hNoUser]
    have hFind' : List.find? (fun w => w.id == uid) db.users = some u := hFind
    have hu_mem : u ∈ db.users := List.mem_of_find?_eq_some hFind'
    have hu_id0 := List.find?_some hFind'
    have hu_id : (u.id == uid) = true := hu_id0
    refine ⟨rfl, ?_, ?_⟩
    · intro v hv hid
      simp only [List.mem_map] at hv
      obtain ⟨w, hw, rfl⟩ := hv
      by_cases hwid : w.id = uid
      · simp [hwid]
      · simp [hwid] at hid
    · have hu_eq : u.id = uid := eq_of_beq hu_id
      exact ⟨_, List.mem_map_of_mem _ hu_mem, by simp [hu_eq], by simp [hu_eq]⟩
  · exact ⟨by decide, by decide⟩

/-- C6 witness: editing the two-role user `u1` with `roles = [admin]`
leaves exactly the single `admin` association. -/
theorem editUser_clearThenConnect_witness :
    EditUserSchema.safeParse (rawEditForm editFormAdminRole) =
      Except.ok { email := "a@b.com", username := "bob", name := "Bob", roles := ["admin"] } ∧
    findUserById dbOneUser "u1" = some userBob ∧
    (editUserAction dbOneUser (adminReq editFormAdminRole) "u1").1 =
      .redirectTo "/admin/all-users" ∧
    (∀ v ∈ (editUserAction dbOneUser (adminReq editFormAdminRole) "u1").2.1.users,
       v.id = "u1" → v.roles = ["admin"]) :=
  ⟨by rfl, by decide,
   (editUser_clearThenConnect.1 dbOneUser (adminReq editFormAdminRole) "u1"
      { email := "a@b.com", username := "bob", name := "Bob", roles := ["admin"] } userBob
      (by decide) (by rfl) (by decide) (by decide) (by decide)).1,
   (editUser_clearThenConnect.1 dbOneUser (adminReq editFormAdminRole) "u1"
      { email := "a@b.com", username := "bob", name := "Bob", roles := ["admin"] } userBob
      (by decide) (by rfl) (by decide) (by decide) (by decide)).2.1⟩

/-- C7: successful creations and edits store the lowercase foldings
of the submitted email/username; a creation whose email matches a
stored (lowercased) email up to case folding is rejected with the
email conflict error and no write; and a successful creation
preserves both invariants: all stored emails/usernames lowercase, no
two users sharing an email or username case-insensitively. -/
theorem lowercase_storage_and_ci_uniqueness :
    (∀ (db : DB) (req : Request) (nid : String) (now : Nat) (d : NewUserData),
       requireUserWithRole req.callerRoles "admin" = true →
       formGet req.form "intent" ≠ some "create-role" →
       formGet req.form "intent" ≠ some "delete-role" →
       AddNewUserSchema.safeParse (rawCreateForm req.form) = Except.ok d →
       findUserByEmail db (toLowerCase d.email) = none →
       findUserByUsername db (toLowerCase d.username) = none →
       (addNewUserAction db req nid now).2.1.users =
         db.users ++
           [{ id := nid, email := toLowerCase d.email, username := toLowerCase d.username,
              name := d.name, passwordHash := getPasswordHash d.password, roles := d.roles,
              createdAt := now }]) ∧
    (∀ (db : DB) (req : Request) (uid : String) (d : EditUserData),
       requireUserWithRole req.callerRoles "admin" = true →
       EditUserSchema.safeParse (rawEditForm req.form) = Except.ok d →
       findFirstUserByEmailExcept db (toLowerCase d.email) uid = none →
       findFirstUserByUsernameExcept db (toLowerCase d.username) uid = none →
       ∀ v ∈ (editUserAction db req uid).2.1.users, v.id = uid →
         v.email = toLowerCase d.email ∧ v.username = toLowerCase d.username) ∧
    (∀ (db : DB) (req : Request) (nid : String) (now : Nat) (d : NewUserData) (u : User),
       requireUserWithRole req.callerRoles "admin" = true →
       formGet req.form "intent" ≠ some "create-role" →
       formGet req.form "intent" ≠ some "delete-role" →
       AddNewUserSchema.safeParse (rawCreateForm req.form) = Except.ok d →
       storedLowercase db → u ∈ db.users →
       toLowerCase u.email = toLowerCase d.email →
       addNewUserAction db req nid now =
         (.fieldErrors [("email", ["A user with this email already exists"])] 400, db,
          [.formParse, .userFindByEmail (toLowerCase d.email)])) ∧
    (∀ (db : DB) (req : Request) (nid : String) (now : Nat) (d : NewUserData),
       requireUserWithRole req.callerRoles "admin" = true →
       formGet req.form "intent" ≠ some "create-role" →
       formGet req.form "intent" ≠ some "delete-role" →
       AddNewUserSchema.safeParse (rawCreateForm req.form) = Except.ok d →
       findUserByEmail db (toLowerCase d.email) = none →
       findUserByUsername db (toLowerCase d.username) = none →
       storedLowercase db → caseInsensitiveUnique db →
       storedLowercase (addNewUserAction db req nid now).2.1 ∧
       caseInsensitiveUnique (addNewUserAction db req nid now).2.1) := by
  refine ⟨?_, ?_, ?_, ?_⟩
  · intro db req nid now d hAdmin hI1 hI2 hParse hNoEmail hNoUser
    rw [addNewUserAction_createSuccess db req nid now d hAdmin hI1 hI2 hParse hNoEmail hNoUser]
  · intro db req uid d hAdmin hParse hNoEmail hNoUser v hv hid
    rw [editUserAction_updateSuccess db req uid d hAdmin hParse hNoEmail hNoUser] at hv
    simp only [List.mem_map] at hv
    obtain ⟨w, hw, rfl⟩ := hv
    by_cases hwid : w.id = uid
    · simp [hwid]
    · simp [hwid] at hid
  · intro db req nid now d u hAdmin hI1 hI2 hParse hLower hMem hCase
    have h1 : toLowerCase u.email = u.email := (hLower u hMem).1
    have hueq : u.email = toLowerCase d.email := by
      rw [← hCase, h1]
    have hSome : (findUserByEmail db (toLowerCase d.email)).isSome = true := by
      unfold findUserByEmail
      rw [List.find?_isSome]
      exact ⟨u, hMem, by simp [hueq]⟩
    unfold addNewUserAction
    simp [hAdmin, hI1, hI2, hParse, hSome]
  · intro db req nid now d hAdmin hI1 hI2 hParse hNoEmail hNoUser hLower hUniq
    rw [addNewUserAction_createSuccess db req nid now d hAdmin hI1 hI2 hParse hNoEmail hNoUser]
    have hNoEmail' : ∀ a ∈ db.users, ¬((fun w => w.email == toLowerCase d.email) a = true) :=
      List.find?_eq_none.mp hNoEmail
    have hNoUser' : ∀ a ∈ db.users, ¬((fun w => w.username == toLowerCase d.username) a = true) :=
      List.find?_eq_none.mp hNoUser
    constructor
    · intro v hv
      rcases List.mem_append.mp hv with h | h
      · exact hLower v h
      · rcases List.mem_singleton.mp h with rfl
        exact ⟨toLowerCase_idem d.email, toLowerCase_idem d.username⟩
    · unfold caseInsensitiveUnique
      rw [List.pairwise_append]
      refine ⟨hUniq, List.pairwise_singleton _ _, ?_⟩
      intro a ha b hb
      rcases List.mem_singleton.mp hb with rfl
      have hae : toLowerCase a.email = a.email := (hLower a ha).1
      have hau : toLowerCase a.username = a.username := (hLower a ha).2
      have hne : a.email ≠ toLowerCase d.email := by
        have h0 := hNoEmail' a ha
        simpa using h0
      have hnu : a.username ≠ toLowerCase d.username := by
        have h0 := hNoUser' a ha
        simpa using h0
      constructor
      · show toLowerCase a.email ≠ toLowerCase (toLowerCase d.email)
        rw [toLowerCase_idem, hae]
        exact hne
      · show toLowerCase a.username ≠ toLowerCase (toLowerCase d.username)
        rw [toLowerCase_idem, hau]
        exact hnu

/-- C7 witness: `A@B.com` collides case-insensitively with stored
`a@b.com` and is rejected; creating fresh `C@D.com` preserves both
invariants. -/
theorem lowercase_ci_uniqueness_witness :
    toLowerCase userBob.email = toLowerCase "A@B.com" ∧
    storedLowercase dbOneUser ∧
    addNewUserAction dbOneUser (adminReq creationForm) "u2" 1 =
      (.fieldErrors [("email", ["A user with this email already exists"])] 400, dbOneUser,
       [.formParse, .userFindByEmail "a@b.com"]) ∧
    storedLowercase (addNewUserAction dbOneUser (adminReq creationForm2) "u2" 1).2.1 ∧
    caseInsensitiveUnique (addNewUserAction dbOneUser (adminReq creationForm2) "u2" 1).2.1 :=
  ⟨by decide, by unfold storedLowercase; decide,
   lowercase_storage_and_ci_uniqueness.2.2.1 dbOneUser (adminReq creationForm) "u2" 1
     { email := "A@B.com", username := "Bob", password := "validpass123",
       name := "Bob B", roles := ["user"] } userBob
     (by decide) (by decide) (by decide) (by rfl)
     (by unfold storedLowercase; decide) (by decide) (by decide),
   (lowercase_storage_and_ci_uniqueness.2.2.2 dbOneUser (adminReq creationForm2) "u2" 1
     { email := "C@D.com", username := "Carol", password := "validpass123",
       name := "Carol C", roles := ["user"] }
     (by decide) (by decide) (by decide) (by rfl) (by decide) (by decide)
     (by unfold storedLowercase; decide)
     (by unfold caseInsensitiveUnique; exact List.pairwise_singleton _ _)).1,
   (lowercase_storage_and_ci_uniqueness.2.2.2 dbOneUser (adminReq creationForm2) "u2" 1
     { email := "C@D.com", username := "Carol", password := "validpass123",
       name := "Carol C", roles := ["user"] }
     (by decide) (by decide) (by decide) (by rfl) (by decide) (by decide)
     (by unfold storedLowercase; decide)
     (by unfold caseInsensitiveUnique; exact List.pairwise_singleton _ _)).2⟩

/-- C2 counterexample: a creation form with no `roles` field at all
parses to `roles = []` — not `["user"]` — because `getAll` hands the
schema an empty list rather than `undefined`; the created user gets no
role association, and an edit without the field leaves none. -/
theorem rolesOmitted_default_counterexample :
    (rawCreateForm creationFormNoRoles).roles = some [] ∧
    AddNewUserSchema.safeParse (rawCreateForm creationFormNoRoles) =
      Except.ok { email := "a@b.com", username := "bob", password := "validpass123",
                  name := "Bob B", roles := [] } ∧
    ¬((AddNewUserSchema.safeParse (rawCreateForm creationFormNoRoles)).toOption.map
        (fun d => d.roles) = some ["user"]) ∧
    (addNewUserAction dbRolesOnly (adminReq creationFormNoRoles) "u1" 0).2.1.users.map
      (fun u => u.roles) = [[]] ∧
    (editUserAction dbOneUser (adminReq editFormNoRoles) "u1").2.1.users.map
      (fun u => u.roles) = [[]] :=
  ⟨rfl, by rfl, by decide, by decide, by decide⟩

/-- C2 as amended: when the `roles` form field is omitted entirely,
`formData.getAll` yields `[]`, the schema accepts it unchanged (its
`["user"]` default substitutes only for an `undefined` input, which
the handlers never produce), the validated record has `roles = []`,
and the creation/edit handlers leave the affected user with no role
associations. -/
theorem rolesOmitted_yields_empty_roleSet :
    (∀ form : List (String × String), (∀ kv ∈ form, kv.1 ≠ "roles") →
       formGetAll form "roles" = []) ∧
    (∀ raw d, AddNewUserSchema.safeParse raw = Except.ok d → d.roles = raw.roles.getD ["user"]) ∧
    (∀ raw d, EditUserSchema.safeParse raw = Except.ok d → d.roles = raw.roles.getD ["user"]) ∧
    (∀ (db : DB) (req : Request) (nid : String) (now : Nat) (d : NewUserData),
       (∀ kv ∈ req.form, kv.1 ≠ "roles") →
       requireUserWithRole req.callerRoles "admin" = true →
       formGet req.form "intent" ≠ some "create-role" →
       formGet req.form "intent" ≠ some "delete-role" →
       AddNewUserSchema.safeParse (rawCreateForm req.form) = Except.ok d →
       findUserByEmail db (toLowerCase d.email) = none →
       findUserByUsername db (toLowerCase d.username) = none →
       d.roles = [] ∧
       (addNewUserAction db req nid now).2.1.users =
         db.users ++
           [{ id := nid, email := toLowerCase d.email, username := toLowerCase d.username,
              name := d.name, passwordHash := getPasswordHash d.password, roles := [],
              createdAt := now }]) ∧
    (∀ (db : DB) (req : Request) (uid : String) (d : EditUserData),
       (∀ kv ∈ req.form, kv.1 ≠ "roles") →
       requireUserWithRole req.callerRoles "admin" = true →
       EditUserSchema.safeParse (rawEditForm req.form) = Except.ok d →
       findFirstUserByEmailExcept db (toLowerCase d.email) uid = none →
       findFirstUserByUsernameExcept db (toLowerCase d.username) uid = none →
       d.roles = [] ∧
       ∀ v ∈ (editUserAction db req uid).2.1.users, v.id = uid → v.roles = []) := by
  have hAll : ∀ form : List (String × String), (∀ kv ∈ form, kv.1 ≠ "roles") →
      formGetAll form "roles" = [] := by
    intro form h
    unfold formGetAll
    have hf : form.filter (fun kv => kv.1 == "roles") = [] := by
      rw [List.filter_eq_nil_iff]
      intro kv hkv
      simpa using h kv hkv
    rw [hf]
    rfl
  have hAdd : ∀ raw d, AddNewUserSchema.safeParse raw = Except.ok d →
      d.roles = raw.roles.getD ["user"] := by
    intro raw d h
    simp only [AddNewUserSchema.safeParse] at h
    split at h
    · cases h
      rfl
    · exact Except.noConfusion h
  have hEdit : ∀ raw d, EditUserSchema.safeParse raw = Except.ok d →
      d.roles = raw.roles.getD ["user"] := by
    intro raw d h
    simp only [EditUserSchema.safeParse] at h
    split at h
    · cases h
      rfl
    · exact Except.noConfusion h
  refine ⟨hAll, hAdd, hEdit, ?_, ?_⟩
  · intro db req nid now d hNo hAdmin hI1 hI2 hParse hNoEmail hNoUser
    have hdre : d.roles = [] := by
      rw [hAdd _ _ hParse]
      show (rawCreateForm req.form).roles.getD ["user"] = []
      unfold rawCreateForm
      simp [hAll req.form hNo]
    refine ⟨hdre, ?_⟩
    rw [addNewUserAction_createSuccess db req nid now d hAdmin hI1 hI2 hParse hNoEmail hNoUser,
      hdre]
  · intro db req uid d hNo hAdmin hParse hNoEmail hNoUser
    have hdre : d.roles = [] := by
      rw [hEdit _ _ hParse]
      unfold rawEditForm
      simp [hAll req.form hNo]
    refine ⟨hdre, ?_⟩
    intro v hv hid
    rw [editUserAction_updateSuccess db req uid d hAdmin hParse hNoEmail hNoUser] at hv
    simp only [List.mem_map] at hv
    obtain ⟨w, hw, rfl⟩ := hv
    by_cases hwid : w.id = uid
    · simp [hwid, hdre]
    · simp [hwid] at hid

/-- C2 witness: creating from a form without a `roles` field stores
the user with an empty role-association list. -/
theorem rolesOmitted_witness :
    (∀ kv ∈ creationFormNoRoles, kv.1 ≠ "roles") ∧
    (addNewUserAction dbRolesOnly (adminReq creationFormNoRoles) "u1" 0).2.1.users =
      dbRolesOnly.users ++
        [{ id := "u1", email := "a@b.com", username := "bob", name := "Bob B",
           passwordHash := getPasswordHash "validpass123", roles := [], createdAt := 0 }] :=
  ⟨by decide,
   (rolesOmitted_yields_empty_roleSet.2.2.2.1 dbRolesOnly (adminReq creationFormNoRoles) "u1" 0
      { email := "a@b.com", username := "bob", password := "validpass123",
        name := "Bob B", roles := [] }
      (by decide) (by decide) (by decide) (by decide) (by rfl) (by decide) (by decide)).2⟩
